import Mathlib

/-!
Shallow embedding of the Minervini SEPA screener core (`src/lib/screener.ts`).

JS numbers are modelled as rationals (`ℚ`); a JS `number | null` value is an
`Option ℚ`; the JS truthiness test `!x` on such a value (true for `null` and
for `0`) is modelled by `falsy`.  `Math.round` is `jsRound` (floor of x + 1/2,
which is exactly JS semantics).  `Array.prototype.sort` with the comparator
`(a, b) => a.rawRs - b.rawRs` is a stable ascending sort, modelled by
`List.insertionSort` over index-tagged entries (the index tag models object
identity through the in-place mutation of the source).
-/

set_option linter.unusedVariables false
set_option maxRecDepth 100000
set_option allowUnsafeReducibility true
attribute [semireducible] Rat.add Rat.mul Rat.inv Rat.sub Rat.neg Rat.ofScientific Rat.div

/-- JS `Math.round`: floor of `q + 1/2`. -/
def jsRound (q : ℚ) : ℤ := ⌊q + 1/2⌋

/-- JS `Math.round(q * 100) / 100` used for two-decimal display rounding. -/
def round2 (q : ℚ) : ℚ := (jsRound (q * 100) : ℚ) / 100

/-- JS truthiness negation `!x` for an `x : number | null`: true for `null` and `0`. -/
def falsy : Option ℚ → Bool
  | none => true
  | some v => v == 0

def MIN_PRICE : ℚ := 10

def MIN_ADV_DOLLARS : ℚ := 20000000

def MA200_RISE_DAYS : Nat := 22

def DIST_52W_LOW : ℚ := 1.25

def MAX_DIST_52W_HIGH : ℚ := 0.75

def VCP_ATR_RATIO : ℚ := 0.75

def VCP_VOL_RATIO : ℚ := 0.80

def VCP_RANGE_MAX : ℚ := 0.08

def VCP_NEAR_HIGH : ℚ := 0.85

def BO_PIVOT_BARS : Nat := 10

def BO_VOL_MULT : ℚ := 1.40

/-- One trading session.  The source field `open` is renamed `openPrice`
(`open` is a Lean keyword); all other field names follow the source. -/
structure Bar where
  date : String
  openPrice : ℚ
  high : ℚ
  low : ℚ
  close : ℚ
  volume : ℚ
deriving DecidableEq

/-- Per-symbol output record of the pipeline, as in the source. -/
structure ScreenerResult where
  symbol : String
  price : ℚ
  rs : ℤ
  rawRs : ℚ
  grade : String
  passesTemplate : Bool
  passesVcp : Bool
  passesBreakout : Bool
  passesLiquidity : Bool
  distance52wLow : ℚ
  distance52wHigh : ℚ
  ma50 : ℚ
  ma150 : ℚ
  ma200 : ℚ
  atr : ℚ
  templateCriteria : Nat
deriving DecidableEq

def dummyBar : Bar :=
  { date := "", openPrice := 0, high := 0, low := 0, close := 0, volume := 0 }

def dummyResult : ScreenerResult :=
  { symbol := "", price := 0, rs := 0, rawRs := 0, grade := "", passesTemplate := false,
    passesVcp := false, passesBreakout := false, passesLiquidity := false,
    distance52wLow := 0, distance52wHigh := 0, ma50 := 0, ma150 := 0, ma200 := 0,
    atr := 0, templateCriteria := 0 }

/-- JS `data[data.length - 1]` (used only behind nonemptiness guards). -/
def lastBar (data : List Bar) : Bar := data.getLastD dummyBar

/-- JS `Math.max(...)` over a nonempty list (0 for the empty list, never reached). -/
def listMax : List ℚ → ℚ
  | [] => 0
  | x :: xs => xs.foldl max x

/-- JS `Math.min(...)` over a nonempty list (0 for the empty list, never reached). -/
def listMin : List ℚ → ℚ
  | [] => 0
  | x :: xs => xs.foldl min x

/-- Source `sma(data, period)`: mean of the last `period` closes, `null` when short. -/
def sma (data : List Bar) (period : Nat) : Option ℚ :=
  if data.length < period then none
  else some ((((data.drop (data.length - period)).map Bar.close).sum) / period)

/-- Source `smaAt(data, period, index)`: the SMA anchored at a historical index. -/
def smaAt (data : List Bar) (period : Nat) (index : Nat) : Option ℚ :=
  if index + 1 < period ∨ data.length ≤ index then none
  else some ((((data.take (index + 1)).drop (index + 1 - period)).map Bar.close).sum / period)

/-- True range of `cur` given the previous bar `prev`. -/
def trValue (prev cur : Bar) : ℚ :=
  max (cur.high - cur.low) (max |cur.high - prev.close| |cur.low - prev.close|)

/-- Source `calcAtr(data, period)`: mean of the last `period` true ranges, where
the true-range list runs over consecutive bar pairs (loop from `i = 1`). -/
def calcAtr (data : List Bar) (period : Nat) : Option ℚ :=
  if data.length < period + 1 then none
  else
    let tr := (data.zip data.tail).map (fun p => trValue p.1 p.2)
    some ((tr.drop (tr.length - period)).sum / period)

/-- Source `avgVolume(data, period)`: mean of the last `period` volumes. -/
def avgVolume (data : List Bar) (period : Nat) : Option ℚ :=
  if data.length < period then none
  else some (((data.drop (data.length - period)).map Bar.volume).sum / period)

/-- Inner join of the two series by date, in stock order.  The source builds a
JS `Map` keyed by benchmark date (later duplicates overwrite earlier ones,
hence the lookup in the reversed benchmark list) and keeps stock bars whose
date is present. -/
def alignPairs (stockData benchmarkData : List Bar) : List (Bar × Bar) :=
  stockData.filterMap (fun bar =>
    match benchmarkData.reverse.find? (fun b => b.date == bar.date) with
    | some benchBar => some (bar, benchBar)
    | none => none)

/-- Source local `calcReturn(data, start, end)` inside `calculateRawRs`. -/
def calcReturn (data : List (Bar × Bar)) (s e : Nat) : ℚ × ℚ :=
  if e ≤ s then (0, 0)
  else
    match data[s]?, data[e - 1]? with
    | some a, some b =>
        ((b.1.close - a.1.close) / a.1.close, (b.2.close - a.2.close) / a.2.close)
    | _, _ => (0, 0)

/-- Source `calculateRawRs(stockData, benchmarkData)`: quarter-weighted
outperformance vs the benchmark over the date-aligned series. -/
def calculateRawRs (stockData benchmarkData : List Bar) : ℚ :=
  if stockData.length < 60 ∨ benchmarkData.length < 60 then 0
  else
    let aligned := alignPairs stockData benchmarkData
    if aligned.length < 60 then 0
    else
      let len := aligned.length
      let q1End := len
      let q1Start := len - 63
      let q2End := q1Start
      let q2Start := q2End - 63
      let q3End := q2Start
      let q3Start := q3End - 63
      let q4End := q3Start
      let q4Start := q4End - 63
      let q1 := calcReturn aligned q1Start q1End
      let q2 := calcReturn aligned q2Start q2End
      let q3 := calcReturn aligned q3Start q3End
      let q4 := calcReturn aligned q4Start q4End
      (q1.1 - q1.2) * 0.4 + (q2.1 - q2.2) * 0.2 + (q3.1 - q3.2) * 0.2 + (q4.1 - q4.2) * 0.2

/-- Comparator order of the source sort `(a, b) => a.rawRs - b.rawRs` on
index-tagged results. -/
def rsLe (a b : Nat × ScreenerResult) : Prop := a.2.rawRs ≤ b.2.rawRs

instance : DecidableRel rsLe := fun a b => inferInstanceAs (Decidable (a.2.rawRs ≤ b.2.rawRs))

instance : IsTotal (Nat × ScreenerResult) rsLe := ⟨fun a b => le_total a.2.rawRs b.2.rawRs⟩

instance : IsTrans (Nat × ScreenerResult) rsLe := ⟨fun _ _ _ h1 h2 => le_trans h1 h2⟩

/-- Index tagging of a batch, modelling object identity of the array entries. -/
def enumFrom (k : Nat) : List ScreenerResult → List (Nat × ScreenerResult)
  | [] => []
  | r :: rest => (k, r) :: enumFrom (k + 1) rest

/-- Position of the entry tagged `i` in a sorted tagged batch. -/
def posIn (sorted : List (Nat × ScreenerResult)) (i : Nat) : Nat :=
  sorted.findIdx (fun q => q.1 == i)

/-- Source clamp `Math.max(1, Math.min(99, percentile))`. -/
def clampRank (z : ℤ) : ℤ := max 1 (min 99 z)

/-- Rank formula of the source: `round(((pos + 1) / count) * 99)` clamped to 1..99. -/
def rankOf (n pos : Nat) : ℤ := clampRank (jsRound (((pos : ℚ) + 1) / (n : ℚ) * 99))

/-- Source `assignPercentileRanks`: stable-sorts the batch by `rawRs` ascending
and writes each entry's percentile rank into `rs` (the in-place mutation of
shared references is modelled by updating each original position with the rank
of its sorted position). -/
def assignPercentileRanks (results : List ScreenerResult) : List ScreenerResult :=
  if results.length = 0 then results
  else
    let sorted := (enumFrom 0 results).insertionSort rsLe
    (enumFrom 0 results).map (fun p => { p.2 with rs := rankOf results.length (posIn sorted p.1) })

/-- Source `passesLiquidity(data, price, avgVol50)` (the `data` argument is
unused in the source as well). -/
def passesLiquidity (data : List Bar) (price avgVol50 : ℚ) : Bool :=
  if price < MIN_PRICE then false
  else decide (MIN_ADV_DOLLARS ≤ price * avgVol50)

structure TemplateResult where
  passes : Bool
  criteriaCount : Nat
deriving DecidableEq

/-- Indicator of a Bool criterion for the source's `criteriaCount++`. -/
def b2n (b : Bool) : Nat := if b then 1 else 0

/-- Source `checkTrendTemplate(data)`: the seven structural Minervini criteria. -/
def checkTrendTemplate (data : List Bar) : TemplateResult :=
  if data.length < 200 then { passes := false, criteriaCount := 0 }
  else
    let price := (lastBar data).close
    let ma50 := sma data 50
    let ma150 := sma data 150
    let ma200 := sma data 200
    if falsy ma50 || falsy ma150 || falsy ma200 then { passes := false, criteriaCount := 0 }
    else
      let m50 := ma50.getD 0
      let m150 := ma150.getD 0
      let m200 := ma200.getD 0
      let c1 := decide (m150 < price ∧ m200 < price)
      let c2 := decide (m200 < m150)
      let ma200_ago := smaAt data 200 (data.length - 1 - MA200_RISE_DAYS)
      let c3 := !(falsy ma200_ago) && decide (ma200_ago.getD 0 < m200)
      let c4 := decide (m150 < m50 ∧ m200 < m50)
      let c5 := decide (m50 < price)
      let oneYearData := data.drop (data.length - 252)
      let low52w := listMin (oneYearData.map Bar.low)
      let c6 := decide (low52w * DIST_52W_LOW ≤ price)
      let high52w := listMax (oneYearData.map Bar.high)
      let c7 := decide (MAX_DIST_52W_HIGH ≤ price / high52w)
      let count := b2n c1 + b2n c2 + b2n c3 + b2n c4 + b2n c5 + b2n c6 + b2n c7
      { passes := decide (7 ≤ count), criteriaCount := count }

/-- Source `checkVcp(data)`: the volatility-contraction gates. -/
def checkVcp (data : List Bar) : Bool :=
  if data.length < 65 then false
  else
    let price := (lastBar data).close
    let atr14 := calcAtr data 14
    let avgVol50 := avgVolume data 50
    if falsy atr14 || falsy avgVol50 then false
    else
      let longerData := data.drop (data.length - 60)
      let longerAtr := calcAtr longerData 14
      let recentData := data.drop (data.length - 20)
      let recentAtr := calcAtr recentData 14
      if falsy longerAtr || falsy recentAtr then false
      else if longerAtr.getD 0 * VCP_ATR_RATIO ≤ recentAtr.getD 0 then false
      else
        let recentAvgVol := avgVolume data 5
        if falsy recentAvgVol || decide (avgVol50.getD 0 * VCP_VOL_RATIO ≤ recentAvgVol.getD 0)
          then false
        else
          let last10 := data.drop (data.length - 10)
          let range10d :=
            (listMax (last10.map Bar.high) - listMin (last10.map Bar.low)) / price
          if VCP_RANGE_MAX < range10d then false
          else
            let high60d := listMax ((data.drop (data.length - 60)).map Bar.high)
            if price < high60d * VCP_NEAR_HIGH then false
            else
              let low52w := listMin ((data.drop (data.length - 252)).map Bar.low)
              let recentLow := listMin ((data.drop (data.length - 10)).map Bar.low)
              if recentLow ≤ low52w * 1.02 then false
              else true

/-- Source `checkBreakout(data)`: pivot/volume/base gates then letter grading. -/
def checkBreakout (data : List Bar) : Option String :=
  if data.length < BO_PIVOT_BARS + 5 then none
  else
    let today := lastBar data
    let currentPrice := today.close
    let currentVolume := today.volume
    let priorBars := (data.take (data.length - 1)).drop (data.length - 1 - BO_PIVOT_BARS)
    let pivotHigh := listMax (priorBars.map Bar.high)
    let avgVol50 := avgVolume data 50
    if falsy avgVol50 then none
    else
      let av := avgVol50.getD 0
      if currentPrice ≤ pivotHigh then none
      else if currentVolume < av * BO_VOL_MULT then none
      else
        let last20 := (data.take (data.length - 1)).drop (data.length - 21)
        let range20 := (listMax (last20.map Bar.high) - listMin (last20.map Bar.low)) / currentPrice
        if (0.25 : ℚ) < range20 then none
        else
          let percentAbove := (currentPrice - pivotHigh) / pivotHigh
          let volumeRatio := currentVolume / av
          if (0.03 : ℚ) ≤ percentAbove ∧ (2 : ℚ) ≤ volumeRatio then some "A"
          else if (0.02 : ℚ) ≤ percentAbove ∧ (1.5 : ℚ) ≤ volumeRatio then some "B"
          else some "C"

/-- Source `assignGrade(result)`. -/
def assignGrade (result : ScreenerResult) : String :=
  if result.passesBreakout && result.passesTemplate && decide (80 ≤ result.rs) then "A"
  else if result.passesBreakout && result.passesTemplate then "B"
  else if result.passesTemplate && result.passesVcp && decide (70 ≤ result.rs) then "B"
  else if result.passesTemplate && decide (70 ≤ result.rs) then "C"
  else if result.passesTemplate then "D"
  else "N/A"

/-- Step 2 of `postProcessResults` for one result: downgrade the template when
`rs < 70`, then re-check VCP against the (possibly downgraded) template. -/
def regate (r : ScreenerResult) : ScreenerResult :=
  let r1 := if r.passesTemplate && decide (r.rs < 70) then { r with passesTemplate := false } else r
  if r1.passesVcp && !r1.passesTemplate then { r1 with passesVcp := false } else r1

/-- Source `postProcessResults(results)`: rank, re-gate, grade. -/
def postProcessResults (results : List ScreenerResult) : List ScreenerResult :=
  let ranked := assignPercentileRanks results
  let regated := ranked.map regate
  regated.map (fun r => { r with grade := assignGrade r })

/-- Source `runPipeline(symbol, data, benchmarkData)`. -/
def runPipeline (symbol : String) (data benchmarkData : List Bar) : Option ScreenerResult :=
  if data.length < 200 then none
  else
    let price := (lastBar data).close
    let avgVol50 := avgVolume data 50
    if falsy avgVol50 || !(passesLiquidity data price (avgVol50.getD 0)) then none
    else
      let ma50 := sma data 50
      let ma150 := sma data 150
      let ma200 := sma data 200
      let atr := calcAtr data 14
      if falsy ma50 || falsy ma150 || falsy ma200 || falsy atr then none
      else
        let oneYearData := data.drop (data.length - 252)
        let high52w := listMax (oneYearData.map Bar.high)
        let low52w := listMin (oneYearData.map Bar.low)
        let distance52wLow := price / low52w
        let distance52wHigh := price / high52w
        let rawRs := calculateRawRs data benchmarkData
        let templateResult := checkTrendTemplate data
        let passesVcp := templateResult.passes && checkVcp data
        let breakoutGrade := checkBreakout data
        let passesBreakout := breakoutGrade.isSome
        some { symbol := symbol
               price := round2 price
               rs := 0
               rawRs := rawRs
               grade := "N/A"
               passesTemplate := templateResult.passes
               passesVcp := passesVcp
               passesBreakout := passesBreakout
               passesLiquidity := true
               distance52wLow := round2 distance52wLow
               distance52wHigh := round2 distance52wHigh
               ma50 := round2 (ma50.getD 0)
               ma150 := round2 (ma150.getD 0)
               ma200 := round2 (ma200.getD 0)
               atr := round2 (atr.getD 0)
               templateCriteria := templateResult.criteriaCount }

/-! Claim-side (specification) definitions, written from the spec's words for
refinement comparisons against the source-translated functions above. -/

/-- Specification-side true-range sequence: one true range per bar, the very
first bar using its own close as its previous close (spec wording for `atr`). -/
def specTrueRanges : List Bar → List ℚ
  | [] => []
  | b :: rest => trValue b b :: ((b :: rest).zip rest).map (fun p => trValue p.1 p.2)

/-- Specification-side outperformance of one aligned window: stock simple
return (last close / first close - 1) minus the benchmark simple return,
an empty window contributing 0. -/
def windowOut (w : List (Bar × Bar)) : ℚ :=
  if w.isEmpty then 0
  else
    let first := w.headD (dummyBar, dummyBar)
    let last := w.getLastD (dummyBar, dummyBar)
    (last.1.close / first.1.close - 1) - (last.2.close / first.2.close - 1)

/-- Specification-side quarter windows of the aligned series: four
non-overlapping windows of up to 63 sessions counting backward from the most
recent session (window 1 being the most recent). -/
def qWindow (a : List (Bar × Bar)) : Nat → List (Bar × Bar)
  | 1 => a.drop (a.length - 63)
  | 2 => (a.take (a.length - 63)).drop (a.length - 126)
  | 3 => (a.take (a.length - 126)).drop (a.length - 189)
  | 4 => (a.take (a.length - 189)).drop (a.length - 252)
  | _ => []

/-- Pivot high used by `checkBreakout`: the maximum high of the
`BO_PIVOT_BARS` sessions immediately preceding today (today excluded). -/
def pivotHighOf (data : List Bar) : ℚ :=
  listMax (((data.take (data.length - 1)).drop (data.length - 1 - BO_PIVOT_BARS)).map Bar.high)

/-- Base width used by `checkBreakout`: high-minus-low range of the 20
sessions preceding today, divided by the current price. -/
def range20Of (data : List Bar) : ℚ :=
  (listMax (((data.take (data.length - 1)).drop (data.length - 21)).map Bar.high) -
    listMin (((data.take (data.length - 1)).drop (data.length - 21)).map Bar.low)) /
  (lastBar data).close

/-- Specification-side breakout grading rule. -/
def breakoutGradeFormula (percentAbove volumeRatio : ℚ) : String :=
  if (0.03 : ℚ) ≤ percentAbove ∧ (2 : ℚ) ≤ volumeRatio then "A"
  else if (0.02 : ℚ) ≤ percentAbove ∧ (1.5 : ℚ) ≤ volumeRatio then "B"
  else "C"

/-! Concrete data used by the witness theorems. -/

def flatBar : Bar :=
  { date := "d", openPrice := 100, high := 100, low := 100, close := 100, volume := 1000000 }

def flatData : List Bar := List.replicate 200 flatBar

def cheapBar : Bar :=
  { date := "d", openPrice := 5, high := 5, low := 5, close := 5, volume := 1000000 }

def cheapData : List Bar := List.replicate 200 cheapBar

def baseBar : Bar :=
  { date := "b", openPrice := 100, high := 100, low := 100, close := 100, volume := 1000 }

def breakoutBar : Bar :=
  { date := "t", openPrice := 100, high := 104, low := 100, close := 104, volume := 2100 }

def boData : List Bar := List.replicate 49 baseBar ++ [breakoutBar]

def rsBar (i : Nat) : Bar :=
  { date := toString i, openPrice := 1, high := 1, low := 1, close := (i : ℚ) + 1, volume := 1 }

def rsData : List Bar := (List.range 60).map rsBar

def atrBarA : Bar := { date := "a", openPrice := 1, high := 3, low := 1, close := 2, volume := 1 }

def atrBarB : Bar := { date := "b", openPrice := 2, high := 5, low := 2, close := 4, volume := 1 }

def atrBarC : Bar := { date := "c", openPrice := 4, high := 6, low := 3, close := 5, volume := 1 }

def atrData : List Bar := [atrBarA, atrBarB, atrBarC]

def sampleResult : ScreenerResult :=
  { symbol := "S", price := 100, rs := 0, rawRs := 1, grade := "N/A", passesTemplate := true,
    passesVcp := true, passesBreakout := false, passesLiquidity := true,
    distance52wLow := 1, distance52wHigh := 1, ma50 := 100, ma150 := 100, ma200 := 100,
    atr := 1, templateCriteria := 7 }

def sampleResult2 : ScreenerResult := { sampleResult with rawRs := 2, passesVcp := false }

def processedSample : ScreenerResult := { sampleResult with rs := 99, grade := "B" }

def processedSample2 : ScreenerResult := { sampleResult2 with rs := 99, grade := "C" }

/-- Composite per-result action of steps 2 and 3 of `postProcessResults`:
re-gate, then write the final grade. -/
def postStep (r : ScreenerResult) : ScreenerResult :=
  { regate r with grade := assignGrade (regate r) }

/-! Helper lemmas. -/

theorem b2n_le_one (b : Bool) : b2n b ≤ 1 := by
  cases b <;> simp [b2n]

theorem regate_vcp_template (x : ScreenerResult) :
    (regate x).passesVcp = true → (regate x).passesTemplate = true := by
  cases hpt : x.passesTemplate <;> cases hpv : x.passesVcp <;>
    by_cases hrs : x.rs < 70 <;>
      simp [regate, hpt, hpv, hrs]

theorem regate_template_rs (x : ScreenerResult) :
    (regate x).passesTemplate = true → (70 : ℤ) ≤ (regate x).rs := by
  cases hpt : x.passesTemplate <;> cases hpv : x.passesVcp <;>
    by_cases hrs : x.rs < 70 <;>
      simp [regate, hpt, hpv, hrs] <;> omega

theorem assignGrade_no_D (y : ScreenerResult)
    (h : y.passesTemplate = true → (70 : ℤ) ≤ y.rs) :
    assignGrade y ≠ "D" ∧
      (assignGrade y = "A" ∨ assignGrade y = "B" ∨ assignGrade y = "C" ∨
        assignGrade y = "N/A") := by
  unfold assignGrade
  split
  · simp
  · split
    · simp
    · split
      · simp
      · split
        · simp
        · split
          · rename_i ht
            simp_all
          · simp

/-- C1: after `postProcessResults`, `passesVcp` implies `passesTemplate` for
every result, on every input batch. -/
theorem postProcess_vcp_implies_template (results : List ScreenerResult)
    (r : ScreenerResult) (hmem : r ∈ postProcessResults results)
    (hvcp : r.passesVcp = true) : r.passesTemplate = true := by
  simp only [postProcessResults, List.mem_map] at hmem
  obtain ⟨y, ⟨x, hx, rfl⟩, rfl⟩ := hmem
  exact regate_vcp_template x hvcp

theorem postProcess_vcp_implies_template_witness :
    processedSample ∈ postProcessResults [sampleResult] ∧
      processedSample.passesTemplate = true :=
  ⟨by decide,
    postProcess_vcp_implies_template [sampleResult] processedSample (by decide) (by decide)⟩

/-- C8: after `postProcessResults`, no result carries grade D; every grade is
one of A, B, C, N/A, since a surviving template pass forces `rs ≥ 70`. -/
theorem postProcess_no_grade_D (results : List ScreenerResult) (r : ScreenerResult)
    (hmem : r ∈ postProcessResults results) :
    r.grade ≠ "D" ∧
      (r.grade = "A" ∨ r.grade = "B" ∨ r.grade = "C" ∨ r.grade = "N/A") := by
  simp only [postProcessResults, List.mem_map] at hmem
  obtain ⟨y, ⟨x, hx, rfl⟩, rfl⟩ := hmem
  exact assignGrade_no_D (regate x) (regate_template_rs x)

theorem postProcess_no_grade_D_witness :
    processedSample2 ∈ postProcessResults [sampleResult2] ∧
      (processedSample2.grade ≠ "D" ∧
        (processedSample2.grade = "A" ∨ processedSample2.grade = "B" ∨
          processedSample2.grade = "C" ∨ processedSample2.grade = "N/A")) :=
  ⟨by decide, postProcess_no_grade_D [sampleResult2] processedSample2 (by decide)⟩

/-- C2: `runPipeline` produces no result for series shorter than 200 bars, and
no result when the liquidity floors fail (latest close below the price floor,
or close times 50-day average volume below the dollar-volume floor). -/
theorem runPipeline_none_short_or_illiquid :
    (∀ (s : String) (data benchmarkData : List Bar), data.length < 200 →
      runPipeline s data benchmarkData = none) ∧
    (∀ (s : String) (data benchmarkData : List Bar) (v : ℚ), 200 ≤ data.length →
      avgVolume data 50 = some v →
      ((lastBar data).close < MIN_PRICE ∨ (lastBar data).close * v < MIN_ADV_DOLLARS) →
      runPipeline s data benchmarkData = none) := by
  constructor
  · intro s data benchmarkData h
    unfold runPipeline
    rw [if_pos h]
  · intro s data benchmarkData v hlen hv hfail
    unfold runPipeline
    rw [if_neg (by omega), hv]
    rw [if_pos]
    by_cases hv0 : v = 0
    · subst hv0
      simp [falsy]
    · have hfalsy : falsy (some v) = false := by
        simp [falsy, hv0]
      have hliq : passesLiquidity data (lastBar data).close v = false := by
        unfold passesLiquidity
        rcases hfail with hp | ha
        · rw [if_pos hp]
        · by_cases hp : (lastBar data).close < MIN_PRICE
          · rw [if_pos hp]
          · rw [if_neg hp]
            simp [not_le.mpr ha]
      simp [hfalsy, hliq]

theorem runPipeline_none_short_or_illiquid_witness :
    runPipeline "CHEAP" cheapData [] = none :=
  runPipeline_none_short_or_illiquid.2 "CHEAP" cheapData [] 1000000 (by decide) (by decide)
    (Or.inl (by decide))

/-- C9: with at least 200 but at most 221 bars the MA-rising criterion samples
`smaAt` at an index whose window underflows, so `checkTrendTemplate` can count
at most 6 criteria and never passes. -/
theorem trend_count_bound (a b d e f g : Bool) :
    decide (7 ≤ b2n a + b2n b + b2n false + b2n d + b2n e + b2n f + b2n g) = false ∧
      b2n a + b2n b + b2n false + b2n d + b2n e + b2n f + b2n g ≤ 6 := by
  cases a <;> cases b <;> cases d <;> cases e <;> cases f <;> cases g <;> decide

theorem checkTrendTemplate_needs_222 (data : List Bar)
    (h1 : 200 ≤ data.length) (h2 : data.length ≤ 221) :
    (checkTrendTemplate data).passes = false ∧
      (checkTrendTemplate data).criteriaCount ≤ 6 := by
  have hidx : data.length - 1 - MA200_RISE_DAYS + 1 < 200 ∨
      data.length ≤ data.length - 1 - MA200_RISE_DAYS := by
    left
    simp only [MA200_RISE_DAYS]
    omega
  have hsma : smaAt data 200 (data.length - 1 - MA200_RISE_DAYS) = none := by
    unfold smaAt
    exact if_pos hidx
  simp only [checkTrendTemplate]
  rw [if_neg (by omega)]
  split
  · exact ⟨rfl, by decide⟩
  · rw [hsma]
    simp only [falsy, Bool.not_true, Bool.false_and]
    exact ⟨(trend_count_bound _ _ _ _ _ _).1, (trend_count_bound _ _ _ _ _ _).2⟩

theorem checkTrendTemplate_needs_222_witness :
    (checkTrendTemplate flatData).passes = false ∧
      (checkTrendTemplate flatData).criteriaCount ≤ 6 :=
  checkTrendTemplate_needs_222 flatData (by decide) (by decide)

/-- C10: a concrete 200-bar constant series passes the length and liquidity
gates and has a valid 14-day ATR of exactly 0, yet `runPipeline` returns no
result: the truthiness guard treats the zero ATR like an unavailable value. -/
theorem runPipeline_drops_zero_atr :
    flatData.length = 200 ∧
    avgVolume flatData 50 = some 1000000 ∧
    passesLiquidity flatData (lastBar flatData).close 1000000 = true ∧
    calcAtr flatData 14 = some 0 ∧
    runPipeline "FLAT" flatData [] = none :=
  ⟨by decide, by decide, by decide, by decide, by decide⟩

theorem drop_cons_of_le {t0 : ℚ} {tr : List ℚ} {period : Nat} (h : period ≤ tr.length) :
    (t0 :: tr).drop ((t0 :: tr).length - period) = tr.drop (tr.length - period) := by
  have hl : (t0 :: tr).length - period = (tr.length - period) + 1 := by
    simp only [List.length_cons]
    omega
  rw [hl, List.drop_succ_cons]

/-- C7: `calcAtr` is unavailable below `period + 1` bars, and otherwise equals
the arithmetic mean of the last `period` values of the specification's
true-range sequence (whose first entry uses the bar's own close as previous
close - an entry that can never fall inside the averaged window). -/
theorem calcAtr_matches_spec :
    (∀ (data : List Bar) (period : Nat), data.length < period + 1 →
      calcAtr data period = none) ∧
    (∀ (data : List Bar) (period : Nat), 0 < period → period + 1 ≤ data.length →
      calcAtr data period =
        some (((specTrueRanges data).drop ((specTrueRanges data).length - period)).sum
          / (period : ℚ))) := by
  constructor
  · intro data period h
    unfold calcAtr
    rw [if_pos h]
  · intro data period hpos hlen
    cases data with
    | nil => simp at hlen
    | cons b rest =>
      have hlen' : period ≤ rest.length := by
        simp only [List.length_cons] at hlen
        omega
      have hh : period ≤ (((b :: rest).zip rest).map (fun p => trValue p.1 p.2)).length := by
        simp only [List.length_map, List.length_zip, List.length_cons]
        omega
      simp only [calcAtr, specTrueRanges, List.tail_cons]
      rw [if_neg (by simp only [List.length_cons]; omega)]
      rw [drop_cons_of_le hh]

theorem calcAtr_matches_spec_witness :
    calcAtr atrData 2 =
      some (((specTrueRanges atrData).drop ((specTrueRanges atrData).length - 2)).sum
        / (2 : ℚ)) :=
  calcAtr_matches_spec.2 atrData 2 (by decide) (by decide)

theorem falsy_eq_false {o : Option ℚ} (h : falsy o = false) : ∃ v, o = some v ∧ v ≠ 0 := by
  cases o with
  | none => simp [falsy] at h
  | some v =>
      refine ⟨v, rfl, ?_⟩
      simpa [falsy] using h

/-- C5: `checkBreakout` yields a grade only when today closes strictly above
the pivot high, volume is at least `BO_VOL_MULT` times the 50-day average and
the 20-session base is at most 25% of price, the grade then following the
A/B/C thresholds; when one of those gates fails it returns `none`, an outcome
distinct from grade C. -/
theorem checkBreakout_grades (data : List Bar) :
    (∀ g, checkBreakout data = some g →
      BO_PIVOT_BARS + 5 ≤ data.length ∧
      ∃ v, avgVolume data 50 = some v ∧ v ≠ 0 ∧
        pivotHighOf data < (lastBar data).close ∧
        v * BO_VOL_MULT ≤ (lastBar data).volume ∧
        range20Of data ≤ (0.25 : ℚ) ∧
        g = breakoutGradeFormula
          (((lastBar data).close - pivotHighOf data) / pivotHighOf data)
          ((lastBar data).volume / v)) ∧
    (∀ v, avgVolume data 50 = some v →
      ((lastBar data).close ≤ pivotHighOf data ∨
        (lastBar data).volume < v * BO_VOL_MULT ∨
        (0.25 : ℚ) < range20Of data) →
      checkBreakout data = none) := by
  constructor
  · intro g hg
    by_cases hlen : data.length < BO_PIVOT_BARS + 5
    · exfalso
      simp only [checkBreakout] at hg
      rw [if_pos hlen] at hg
      cases hg
    · refine ⟨not_lt.mp hlen, ?_⟩
      cases havg : avgVolume data 50 with
      | none =>
          exfalso
          simp only [checkBreakout] at hg
          rw [if_neg hlen, havg] at hg
          simp [falsy] at hg
      | some v =>
          simp only [checkBreakout] at hg
          rw [if_neg hlen, havg] at hg
          by_cases hv0 : v = 0
          · exfalso
            subst hv0
            simp [falsy] at hg
          · have hfalsy : falsy (some v) = false := by simp [falsy, hv0]
            rw [hfalsy] at hg
            simp only [Bool.false_eq_true, if_false, Option.getD_some] at hg
            refine ⟨v, rfl, hv0, ?_, ?_, ?_, ?_⟩
            · split at hg
              · cases hg
              · rename_i hpivot
                exact not_le.mp hpivot
            · split at hg
              · cases hg
              · split at hg
                · cases hg
                · rename_i hvol
                  exact not_lt.mp hvol
            · split at hg
              · cases hg
              · split at hg
                · cases hg
                · split at hg
                  · cases hg
                  · rename_i hrange
                    exact not_lt.mp hrange
            · split at hg
              · cases hg
              · split at hg
                · cases hg
                · split at hg
                  · cases hg
                  · simp only [breakoutGradeFormula, pivotHighOf]
                    split at hg
                    · rename_i hca
                      rw [if_pos hca]
                      exact (Option.some_inj.mp hg).symm
                    · rename_i hca
                      rw [if_neg hca]
                      split at hg
                      · rename_i hcb
                        rw [if_pos hcb]
                        exact (Option.some_inj.mp hg).symm
                      · rename_i hcb
                        rw [if_neg hcb]
                        exact (Option.some_inj.mp hg).symm
  · intro v havg hcond
    simp only [pivotHighOf, range20Of] at hcond
    by_cases hlen : data.length < BO_PIVOT_BARS + 5
    · simp only [checkBreakout]
      rw [if_pos hlen]
    · simp only [checkBreakout]
      rw [if_neg hlen, havg]
      by_cases hv0 : v = 0
      · subst hv0
        simp [falsy]
      · have hfalsy : falsy (some v) = false := by simp [falsy, hv0]
        rw [hfalsy]
        simp only [Bool.false_eq_true, if_false, Option.getD_some]
        split
        · rfl
        · split
          · rfl
          · split
            · rfl
            · exfalso
              rename_i h3 h4 h5
              rcases hcond with h | h | h
              · exact h3 h
              · exact h4 h
              · exact h5 h

theorem checkBreakout_grades_witness :
    BO_PIVOT_BARS + 5 ≤ boData.length ∧
      ∃ v, avgVolume boData 50 = some v ∧ v ≠ 0 ∧
        pivotHighOf boData < (lastBar boData).close ∧
        v * BO_VOL_MULT ≤ (lastBar boData).volume ∧
        range20Of boData ≤ (0.25 : ℚ) ∧
        "A" = breakoutGradeFormula
          (((lastBar boData).close - pivotHighOf boData) / pivotHighOf boData)
          ((lastBar boData).volume / v) :=
  (checkBreakout_grades boData).1 "A" (by decide)

/-! Lemmas about `enumFrom`, the stable sort and `posIn`. -/

theorem enumFrom_length (k : Nat) (l : List ScreenerResult) :
    (enumFrom k l).length = l.length := by
  induction l generalizing k with
  | nil => rfl
  | cons r rest ih => simp [enumFrom, ih]

theorem enumFrom_getElem? (k : Nat) (l : List ScreenerResult) (i : Nat) :
    (enumFrom k l)[i]? = l[i]?.map (fun r => (k + i, r)) := by
  induction l generalizing k i with
  | nil => simp [enumFrom]
  | cons r rest ih =>
      cases i with
      | zero => simp [enumFrom]
      | succ n =>
          simp only [enumFrom, List.getElem?_cons_succ, ih]
          have hn : k + 1 + n = k + (n + 1) := by omega
          rw [hn]

theorem enumFrom_map_fst (k : Nat) (l : List ScreenerResult) :
    (enumFrom k l).map Prod.fst = List.range' k l.length 1 := by
  induction l generalizing k with
  | nil => rfl
  | cons r rest ih => simp [enumFrom, ih, List.range'_succ]

theorem enumFrom_map_rawRs (k : Nat) (l : List ScreenerResult) :
    (enumFrom k l).map (fun p => p.2.rawRs) = l.map ScreenerResult.rawRs := by
  induction l generalizing k with
  | nil => rfl
  | cons r rest ih => simp [enumFrom, ih]

theorem sorted_fst_nodup (l : List ScreenerResult) :
    ((enumFrom 0 l).insertionSort rsLe).Pairwise (fun a b => a.1 ≠ b.1) := by
  have h1 : ((enumFrom 0 l).map Prod.fst).Nodup := by
    rw [enumFrom_map_fst]
    exact List.nodup_range' 0 l.length 1 (by norm_num)
  have hperm := List.perm_insertionSort rsLe (enumFrom 0 l)
  have h2 : (((enumFrom 0 l).insertionSort rsLe).map Prod.fst).Nodup :=
    ((hperm.map Prod.fst).nodup_iff).mpr h1
  simpa [List.Nodup, List.pairwise_map] using h2

theorem mem_sorted (l : List ScreenerResult) (i : Nat) (hi : i < l.length) :
    (i, l.get ⟨i, hi⟩) ∈ (enumFrom 0 l).insertionSort rsLe := by
  have h1 : (enumFrom 0 l)[i]? = some (i, l.get ⟨i, hi⟩) := by
    rw [enumFrom_getElem?, List.getElem?_eq_getElem hi]
    simp [List.get_eq_getElem]
  have h2 : (i, l.get ⟨i, hi⟩) ∈ enumFrom 0 l := by
    rw [List.getElem?_eq_some] at h1
    obtain ⟨hlen, heq⟩ := h1
    exact heq ▸ List.getElem_mem hlen
  exact ((List.perm_insertionSort rsLe (enumFrom 0 l)).symm.mem_iff).mp h2

theorem posIn_spec (sorted : List (Nat × ScreenerResult)) (i : Nat) (r : ScreenerResult)
    (hmem : (i, r) ∈ sorted) (hpw : sorted.Pairwise (fun a b => a.1 ≠ b.1)) :
    ∃ hlt : posIn sorted i < sorted.length,
      sorted.get ⟨posIn sorted i, hlt⟩ = (i, r) := by
  induction sorted with
  | nil => cases hmem
  | cons p tl ih =>
      rw [List.pairwise_cons] at hpw
      by_cases hpi : p.1 = i
      · have hfi : posIn (p :: tl) i = 0 := by
          simp [posIn, List.findIdx_cons, hpi]
        rcases List.mem_cons.mp hmem with heq | htl
        · refine ⟨by simp [hfi], ?_⟩
          simp only [hfi]
          simp [heq.symm]
        · exact absurd hpi (hpw.1 _ htl)
      · have hb : (p.1 == i) = false := beq_eq_false_iff_ne.mpr hpi
        have hfi : posIn (p :: tl) i = posIn tl i + 1 := by
          simp [posIn, List.findIdx_cons, hb]
        rcases List.mem_cons.mp hmem with heq | htl
        · exact absurd (congrArg Prod.fst heq.symm) hpi
        · obtain ⟨hlt, hget⟩ := ih htl hpw.2
          refine ⟨by simp only [hfi, List.length_cons]; omega, ?_⟩
          simp only [hfi]
          simpa using hget

theorem posIn_lt_posIn (l : List ScreenerResult) (i j : Nat) (hi : i < l.length)
    (hj : j < l.length)
    (hrs : (l.get ⟨i, hi⟩).rawRs < (l.get ⟨j, hj⟩).rawRs) :
    posIn ((enumFrom 0 l).insertionSort rsLe) i <
      posIn ((enumFrom 0 l).insertionSort rsLe) j := by
  have hpw := sorted_fst_nodup l
  obtain ⟨hpi, hgi⟩ := posIn_spec _ i _ (mem_sorted l i hi) hpw
  obtain ⟨hpj, hgj⟩ := posIn_spec _ j _ (mem_sorted l j hj) hpw
  have hsorted : ((enumFrom 0 l).insertionSort rsLe).Sorted rsLe :=
    List.sorted_insertionSort rsLe (enumFrom 0 l)
  by_contra hcon
  push_neg at hcon
  rcases Nat.lt_or_ge (posIn ((enumFrom 0 l).insertionSort rsLe) j)
      (posIn ((enumFrom 0 l).insertionSort rsLe) i) with hlt | hge
  · have hab : (⟨posIn ((enumFrom 0 l).insertionSort rsLe) j, hpj⟩ :
        Fin ((enumFrom 0 l).insertionSort rsLe).length) <
        ⟨posIn ((enumFrom 0 l).insertionSort rsLe) i, hpi⟩ := hlt
    have hrel := hsorted.rel_get_of_lt hab
    rw [hgi, hgj] at hrel
    exact absurd hrs (not_lt.mpr hrel)
  · have heq : posIn ((enumFrom 0 l).insertionSort rsLe) i =
        posIn ((enumFrom 0 l).insertionSort rsLe) j := by omega
    have h1 : ((enumFrom 0 l).insertionSort rsLe).get
        ⟨posIn ((enumFrom 0 l).insertionSort rsLe) i, hpi⟩ =
        ((enumFrom 0 l).insertionSort rsLe).get
        ⟨posIn ((enumFrom 0 l).insertionSort rsLe) j, hpj⟩ := by
      congr 1
      exact Fin.ext heq
    rw [hgi, hgj] at h1
    have hij : i = j := congrArg Prod.fst h1
    subst hij
    exact absurd hrs (lt_irrefl _)

theorem clampRank_mono {z w : ℤ} (h : z ≤ w) : clampRank z ≤ clampRank w := by
  unfold clampRank
  exact max_le_max (le_refl 1) (min_le_min (le_refl 99) h)

theorem rankOf_mono (n : Nat) (hn : 0 < n) {p q : Nat} (h : p ≤ q) :
    rankOf n p ≤ rankOf n q := by
  apply clampRank_mono
  apply Int.floor_le_floor
  have hpq : (p : ℚ) + 1 ≤ (q : ℚ) + 1 := by
    have hc : (p : ℚ) ≤ (q : ℚ) := by exact_mod_cast h
    linarith
  gcongr

theorem rankOf_bounds (n pos : Nat) : 1 ≤ rankOf n pos ∧ rankOf n pos ≤ 99 := by
  unfold rankOf clampRank
  exact ⟨le_max_left _ _, max_le (by norm_num) (min_le_left _ _)⟩

theorem assignRanks_length (l : List ScreenerResult) :
    (assignPercentileRanks l).length = l.length := by
  unfold assignPercentileRanks
  split
  · rfl
  · simp [enumFrom_length]

theorem assignRanks_getD (l : List ScreenerResult) (i : Nat) (hi : i < l.length) :
    (assignPercentileRanks l).getD i dummyResult =
      { l.getD i dummyResult with
        rs := rankOf l.length (posIn ((enumFrom 0 l).insertionSort rsLe) i) } := by
  unfold assignPercentileRanks
  rw [if_neg (by omega)]
  rw [List.getD_eq_getElem?_getD, List.getElem?_map, enumFrom_getElem?]
  rw [List.getD_eq_getElem?_getD]
  rw [List.getElem?_eq_getElem hi]
  simp

/-- C3: `assignPercentileRanks` on a non-empty batch produces one rank per
result; the stable sort of the tagged batch is a sorted permutation of it;
each result's `rs` is `rankOf n pos` - `round(((pos+1)/n)·99)` clamped to
`[1, 99]` - at its ascending-sort position; every rank lies in `[1, 99]`; and
ranking is monotone in `rawRs`. -/
theorem assignPercentileRanks_spec (results : List ScreenerResult)
    (hne : results ≠ []) :
    (assignPercentileRanks results).length = results.length ∧
    List.Perm ((enumFrom 0 results).insertionSort rsLe) (enumFrom 0 results) ∧
    ((enumFrom 0 results).insertionSort rsLe).Pairwise rsLe ∧
    (∀ i, i < results.length →
      ((assignPercentileRanks results).getD i dummyResult).rs =
        rankOf results.length (posIn ((enumFrom 0 results).insertionSort rsLe) i)) ∧
    (∀ r ∈ assignPercentileRanks results, 1 ≤ r.rs ∧ r.rs ≤ 99) ∧
    (∀ i j, i < results.length → j < results.length →
      (results.getD i dummyResult).rawRs < (results.getD j dummyResult).rawRs →
      ((assignPercentileRanks results).getD i dummyResult).rs ≤
        ((assignPercentileRanks results).getD j dummyResult).rs) := by
  have hn : 0 < results.length := List.length_pos.mpr hne
  refine ⟨assignRanks_length results, List.perm_insertionSort rsLe _,
    List.sorted_insertionSort rsLe _, ?_, ?_, ?_⟩
  · intro i hi
    rw [assignRanks_getD results i hi]
  · intro r hr
    unfold assignPercentileRanks at hr
    rw [if_neg (by omega)] at hr
    simp only [List.mem_map] at hr
    obtain ⟨p, hp, rfl⟩ := hr
    exact rankOf_bounds results.length _
  · intro i j hi hj hrs
    rw [assignRanks_getD results i hi, assignRanks_getD results j hj]
    apply rankOf_mono results.length hn
    apply Nat.le_of_lt
    apply posIn_lt_posIn results i j hi hj
    rw [List.getD_eq_getElem _ _ hi, List.getD_eq_getElem _ _ hj] at hrs
    simpa [List.get_eq_getElem] using hrs

theorem assignPercentileRanks_spec_witness :
    (assignPercentileRanks [sampleResult, sampleResult2]).length =
      ([sampleResult, sampleResult2] : List ScreenerResult).length ∧
    ((assignPercentileRanks [sampleResult, sampleResult2]).getD 1 dummyResult).rs = 99 :=
  ⟨(assignPercentileRanks_spec [sampleResult, sampleResult2] (by decide)).1, by decide⟩

/-! Lemmas for idempotence of post-processing: the sort permutation and the
positions depend only on the index tags and `rawRs` keys of the entries. -/

theorem orderedInsert_key_congr (a b : Nat × ScreenerResult)
    (hab : (a.1, a.2.rawRs) = (b.1, b.2.rawRs)) :
    ∀ (s t : List (Nat × ScreenerResult)),
      s.map (fun p => (p.1, p.2.rawRs)) = t.map (fun p => (p.1, p.2.rawRs)) →
      (List.orderedInsert rsLe a s).map (fun p => (p.1, p.2.rawRs)) =
        (List.orderedInsert rsLe b t).map (fun p => (p.1, p.2.rawRs)) := by
  intro s
  induction s with
  | nil =>
      intro t ht
      have ht' : t = [] := by simpa using ht.symm
      subst ht'
      simpa using hab
  | cons x s' ih =>
      intro t ht
      cases t with
      | nil => simp at ht
      | cons y t' =>
          simp only [List.map_cons, List.cons.injEq] at ht
          obtain ⟨hxy, hst⟩ := ht
          have hrs : a.2.rawRs = b.2.rawRs := congrArg Prod.snd hab
          have hxyrs : x.2.rawRs = y.2.rawRs := congrArg Prod.snd hxy
          by_cases hc : rsLe a x
          · have hc' : rsLe b y := by
              unfold rsLe at hc ⊢
              rw [← hrs, ← hxyrs]
              exact hc
            simp only [List.orderedInsert, if_pos hc, if_pos hc', List.map_cons]
            rw [hab, hxy, hst]
          · have hc' : ¬rsLe b y := by
              unfold rsLe at hc ⊢
              rw [← hrs, ← hxyrs]
              exact hc
            simp only [List.orderedInsert, if_neg hc, if_neg hc', List.map_cons]
            rw [hxy, ih t' hst]

theorem insertionSort_key_congr :
    ∀ (s t : List (Nat × ScreenerResult)),
      s.map (fun p => (p.1, p.2.rawRs)) = t.map (fun p => (p.1, p.2.rawRs)) →
      (s.insertionSort rsLe).map (fun p => (p.1, p.2.rawRs)) =
        (t.insertionSort rsLe).map (fun p => (p.1, p.2.rawRs)) := by
  intro s
  induction s with
  | nil =>
      intro t ht
      have ht' : t = [] := by simpa using ht.symm
      subst ht'
      rfl
  | cons x s' ih =>
      intro t ht
      cases t with
      | nil => simp at ht
      | cons y t' =>
          simp only [List.map_cons, List.cons.injEq] at ht
          obtain ⟨hxy, hst⟩ := ht
          simp only [List.insertionSort]
          exact orderedInsert_key_congr x y hxy _ _ (ih t' hst)

theorem findIdx_fst_congr (i : Nat) :
    ∀ (s t : List (Nat × ScreenerResult)),
      s.map (fun p => (p.1, p.2.rawRs)) = t.map (fun p => (p.1, p.2.rawRs)) →
      s.findIdx (fun q => q.1 == i) = t.findIdx (fun q => q.1 == i) := by
  intro s
  induction s with
  | nil =>
      intro t ht
      have ht' : t = [] := by simpa using ht.symm
      subst ht'
      rfl
  | cons x s' ih =>
      intro t ht
      cases t with
      | nil => simp at ht
      | cons y t' =>
          simp only [List.map_cons, List.cons.injEq] at ht
          obtain ⟨hxy, hst⟩ := ht
          have hfst : x.1 = y.1 := (Prod.ext_iff.mp hxy).1
          rw [List.findIdx_cons, List.findIdx_cons, hfst, ih t' hst]

theorem enumFrom_key_congr (k : Nat) :
    ∀ (l m : List ScreenerResult),
      l.map ScreenerResult.rawRs = m.map ScreenerResult.rawRs →
      (enumFrom k l).map (fun p => (p.1, p.2.rawRs)) =
        (enumFrom k m).map (fun p => (p.1, p.2.rawRs)) := by
  intro l
  induction l generalizing k with
  | nil =>
      intro m hm
      have hm' : m = [] := by simpa using hm.symm
      subst hm'
      rfl
  | cons r rest ih =>
      intro m hm
      cases m with
      | nil => simp at hm
      | cons r' rest' =>
          simp only [List.map_cons, List.cons.injEq] at hm
          obtain ⟨hr, hrest⟩ := hm
          simp only [enumFrom, List.map_cons, List.cons.injEq]
          exact ⟨by rw [hr], ih (k + 1) rest' hrest⟩

theorem posIn_congr (l m : List ScreenerResult)
    (h : l.map ScreenerResult.rawRs = m.map ScreenerResult.rawRs) (i : Nat) :
    posIn ((enumFrom 0 l).insertionSort rsLe) i =
      posIn ((enumFrom 0 m).insertionSort rsLe) i :=
  findIdx_fst_congr i _ _ (insertionSort_key_congr _ _ (enumFrom_key_congr 0 l m h))

theorem regate_rawRs (r : ScreenerResult) : (regate r).rawRs = r.rawRs := by
  cases hpt : r.passesTemplate <;> cases hpv : r.passesVcp <;>
    by_cases hrs : r.rs < 70 <;> simp [regate, hpt, hpv, hrs]

theorem regate_rs (r : ScreenerResult) : (regate r).rs = r.rs := by
  cases hpt : r.passesTemplate <;> cases hpv : r.passesVcp <;>
    by_cases hrs : r.rs < 70 <;> simp [regate, hpt, hpv, hrs]

theorem regate_idem (r : ScreenerResult) : regate (regate r) = regate r := by
  cases hpt : r.passesTemplate <;> cases hpv : r.passesVcp <;>
    by_cases hrs : r.rs < 70 <;> simp [regate, hpt, hpv, hrs]

theorem regate_grade_update (r : ScreenerResult) (g' : String) :
    regate { r with grade := g' } = { regate r with grade := g' } := by
  cases hpt : r.passesTemplate <;> cases hpv : r.passesVcp <;>
    by_cases hrs : r.rs < 70 <;> simp [regate, hpt, hpv, hrs]

theorem assignGrade_grade_update (r : ScreenerResult) (g' : String) :
    assignGrade { r with grade := g' } = assignGrade r := rfl

theorem postStep_rawRs (r : ScreenerResult) : (postStep r).rawRs = r.rawRs :=
  regate_rawRs r

theorem postStep_rs (r : ScreenerResult) : (postStep r).rs = r.rs :=
  regate_rs r

theorem postStep_idem (r : ScreenerResult) : postStep (postStep r) = postStep r := by
  obtain ⟨sym, pr, rsv, raw, gr, pt, pv, pb, pl, dl, dh, m1, m2, m3, av, tc⟩ := r
  cases pt <;> cases pv <;> by_cases hrs : rsv < 70 <;>
    simp [postStep, regate, assignGrade, hrs]

theorem map_postStep_rawRs (l : List ScreenerResult) :
    (l.map postStep).map ScreenerResult.rawRs = l.map ScreenerResult.rawRs := by
  induction l with
  | nil => rfl
  | cons r rest ih => simp [postStep_rawRs r, ih]

theorem map_postStep_idem (l : List ScreenerResult) :
    (l.map postStep).map postStep = l.map postStep := by
  induction l with
  | nil => rfl
  | cons r rest ih =>
      simp only [List.map_cons, List.cons.injEq]
      exact ⟨postStep_idem r, ih⟩

theorem assignRanks_map_rawRs (l : List ScreenerResult) :
    (assignPercentileRanks l).map ScreenerResult.rawRs = l.map ScreenerResult.rawRs := by
  by_cases h : l.length = 0
  · unfold assignPercentileRanks
    rw [if_pos h]
  · simp only [assignPercentileRanks, if_neg h]
    rw [List.map_map]
    exact enumFrom_map_rawRs 0 l

theorem assignRanks_eq_self (m : List ScreenerResult)
    (h : ∀ i, i < m.length → (m.getD i dummyResult).rs =
      rankOf m.length (posIn ((enumFrom 0 m).insertionSort rsLe) i)) :
    assignPercentileRanks m = m := by
  apply List.ext_getElem (assignRanks_length m)
  intro i h1 h2
  have hd := assignRanks_getD m i h2
  rw [List.getD_eq_getElem _ _ h1, List.getD_eq_getElem _ _ h2] at hd
  have hr := h i h2
  rw [List.getD_eq_getElem _ _ h2] at hr
  rw [hd, ← hr]

theorem postProcess_eq_map_postStep (l : List ScreenerResult) :
    postProcessResults l = (assignPercentileRanks l).map postStep := by
  unfold postProcessResults postStep
  rw [List.map_map]
  rfl

/-- C6: `postProcessResults` is idempotent - running it a second time on an
already-processed batch (whose `rawRs` values are unchanged by processing)
reproduces exactly the same ranks, gates and grades. -/
theorem postProcess_idempotent (results : List ScreenerResult) :
    postProcessResults (postProcessResults results) = postProcessResults results := by
  rw [postProcess_eq_map_postStep, postProcess_eq_map_postStep]
  have hraw : ((assignPercentileRanks results).map postStep).map ScreenerResult.rawRs =
      results.map ScreenerResult.rawRs := by
    rw [map_postStep_rawRs, assignRanks_map_rawRs]
  have hlen : ((assignPercentileRanks results).map postStep).length = results.length := by
    simp [assignRanks_length]
  have hA : assignPercentileRanks ((assignPercentileRanks results).map postStep) =
      (assignPercentileRanks results).map postStep := by
    apply assignRanks_eq_self
    intro i hi
    have hi0 : i < results.length := by
      rw [hlen] at hi
      exact hi
    have hiA : i < (assignPercentileRanks results).length := by
      rw [assignRanks_length]
      exact hi0
    rw [hlen, posIn_congr _ results hraw i]
    have hgd : (((assignPercentileRanks results).map postStep).getD i dummyResult) =
        postStep ((assignPercentileRanks results).getD i dummyResult) := by
      rw [List.getD_eq_getElem _ _ hi, List.getD_eq_getElem _ _ hiA, List.getElem_map]
    rw [hgd, postStep_rs, assignRanks_getD results i hi0]
  rw [hA, map_postStep_idem]

/-! Lemmas about the date alignment and the quarter windows. -/

theorem alignPairs_length_le_left (sd bd : List Bar) :
    (alignPairs sd bd).length ≤ sd.length :=
  List.length_filterMap_le _ _

theorem alignPairs_mem (sd bd : List Bar) (p : Bar × Bar) (hp : p ∈ alignPairs sd bd) :
    p.1 ∈ sd ∧ p.2 ∈ bd ∧ p.2.date = p.1.date := by
  unfold alignPairs at hp
  rw [List.mem_filterMap] at hp
  obtain ⟨bar, hbar, hf⟩ := hp
  cases hfind : bd.reverse.find? (fun b => b.date == bar.date) with
  | none =>
      rw [hfind] at hf
      cases hf
  | some bb =>
      rw [hfind] at hf
      rw [Option.some_inj] at hf
      subst hf
      refine ⟨hbar, List.mem_reverse.mp (List.mem_of_find?_eq_some hfind), ?_⟩
      have hbq := List.find?_some hfind
      simpa using hbq

theorem alignPairs_map_fst (sd bd : List Bar) :
    (alignPairs sd bd).map Prod.fst =
      sd.filter (fun bar => (bd.reverse.find? (fun b => b.date == bar.date)).isSome) := by
  induction sd with
  | nil => rfl
  | cons bar sd' ih =>
      unfold alignPairs at ih ⊢
      rw [List.filterMap_cons, List.filter_cons]
      cases hfind : bd.reverse.find? (fun b => b.date == bar.date) with
      | none => simpa [hfind] using ih
      | some bb => simpa [hfind] using ih

theorem alignPairs_length_le_right (sd bd : List Bar) (hnd : (sd.map Bar.date).Nodup) :
    (alignPairs sd bd).length ≤ bd.length := by
  have hsub : List.Sublist ((alignPairs sd bd).map Prod.fst) sd := by
    rw [alignPairs_map_fst]
    exact List.filter_sublist sd
  have h1 : (((alignPairs sd bd).map Prod.fst).map Bar.date).Nodup :=
    (hsub.map Bar.date).nodup hnd
  have h2 : ∀ d ∈ ((alignPairs sd bd).map Prod.fst).map Bar.date, d ∈ bd.map Bar.date := by
    intro d hd
    rw [List.map_map, List.mem_map] at hd
    obtain ⟨p, hp, rfl⟩ := hd
    rw [List.mem_map]
    obtain ⟨_, hpb, hdate⟩ := alignPairs_mem sd bd p hp
    exact ⟨p.2, hpb, hdate⟩
  have h3 := (h1.subperm h2).length_le
  simpa using h3

theorem slice_headD (A : List (Bar × Bar)) (a b : Nat) (hab : a < b) (hb : b ≤ A.length)
    (d : Bar × Bar) : ((A.take b).drop a).headD d = A.getD a d := by
  have ha : a < A.length := lt_of_lt_of_le hab hb
  rw [List.drop_take, List.drop_eq_getElem_cons ha]
  obtain ⟨k, hk⟩ : ∃ k, b - a = k + 1 := ⟨b - a - 1, by omega⟩
  rw [hk, List.take_succ_cons, List.headD_cons, List.getD_eq_getElem _ _ ha]

theorem slice_getLastD (A : List (Bar × Bar)) (a b : Nat) (hab : a < b) (hb : b ≤ A.length)
    (d : Bar × Bar) : ((A.take b).drop a).getLastD d = A.getD (b - 1) d := by
  rw [List.getLastD_eq_getLast?, List.getLast?_eq_getElem?]
  have hlen : ((A.take b).drop a).length = b - a := by
    rw [List.length_drop, List.length_take]
    omega
  rw [hlen, List.getElem?_drop]
  have hidx : a + (b - a - 1) = b - 1 := by omega
  rw [hidx, List.getElem?_take, if_pos (by omega : b - 1 < b), List.getD_eq_getElem?_getD]

theorem calcReturn_windowOut (A : List (Bar × Bar)) (a b : Nat) (hb : b ≤ A.length)
    (hpos : ∀ p ∈ A, 0 < p.1.close ∧ 0 < p.2.close) :
    (calcReturn A a b).1 - (calcReturn A a b).2 = windowOut ((A.take b).drop a) := by
  by_cases hab : b ≤ a
  · have hnil : (A.take b).drop a = [] :=
      List.drop_eq_nil_of_le (by rw [List.length_take]; omega)
    unfold calcReturn windowOut
    rw [if_pos hab, hnil]
    simp
  · push_neg at hab
    have ha : a < A.length := lt_of_lt_of_le hab hb
    have hb1 : b - 1 < A.length := by omega
    have hne : ¬((A.take b).drop a).isEmpty = true := by
      rw [List.isEmpty_iff]
      intro hcon
      have hcon' := congrArg List.length hcon
      rw [List.length_drop, List.length_take] at hcon'
      simp only [List.length_nil] at hcon'
      omega
    simp only [calcReturn, windowOut]
    rw [if_neg (not_le.mpr hab), if_neg hne]
    rw [List.getElem?_eq_getElem ha, List.getElem?_eq_getElem hb1]
    dsimp only
    rw [slice_headD A a b hab hb, slice_getLastD A a b hab hb]
    have hmema : A.getD a (dummyBar, dummyBar) ∈ A := by
      rw [List.getD_eq_getElem _ _ ha]
      exact List.getElem_mem ha
    have hmemb : A.getD (b - 1) (dummyBar, dummyBar) ∈ A := by
      rw [List.getD_eq_getElem _ _ hb1]
      exact List.getElem_mem hb1
    have hpa := hpos _ hmema
    have hpb := hpos _ hmemb
    rw [List.getD_eq_getElem _ _ ha] at hpa
    rw [List.getD_eq_getElem _ _ hb1] at hpb
    rw [List.getD_eq_getElem _ _ ha, List.getD_eq_getElem _ _ hb1]
    have h1 := ne_of_gt hpa.1
    have h2 := ne_of_gt hpa.2
    field_simp

theorem slice_append (A : List (Bar × Bar)) (a b c : Nat) (hab : a ≤ b) (hbc : b ≤ c) :
    (A.take b).drop a ++ (A.take c).drop b = (A.take c).drop a := by
  rw [List.drop_take, List.drop_take, List.drop_take]
  have hd : (A.drop a).drop (b - a) = A.drop b := by
    rw [List.drop_drop]
    congr 1
    omega
  rw [← hd]
  have hca : c - a = (b - a) + (c - b) := by omega
  rw [hca, List.take_add]

/-- C4: `calculateRawRs` inner-joins by date; with fewer than 60 aligned
sessions it returns 0; otherwise (for positive-price, duplicate-free series)
it equals the `0.4/0.2/0.2/0.2`-weighted sum of the per-window outperformance
(stock simple return minus benchmark simple return, last close over first
close minus one), over four backward-counted windows of at most 63 sessions
that partition the most recent aligned history; empty windows contribute 0. -/
theorem calculateRawRs_spec (sd bd : List Bar) :
    ((alignPairs sd bd).length < 60 → calculateRawRs sd bd = 0) ∧
    ((sd.map Bar.date).Nodup → (∀ b ∈ sd, 0 < b.close) → (∀ b ∈ bd, 0 < b.close) →
      60 ≤ (alignPairs sd bd).length →
      (calculateRawRs sd bd =
        0.4 * windowOut (qWindow (alignPairs sd bd) 1) +
        0.2 * windowOut (qWindow (alignPairs sd bd) 2) +
        0.2 * windowOut (qWindow (alignPairs sd bd) 3) +
        0.2 * windowOut (qWindow (alignPairs sd bd) 4)) ∧
      (∀ k, (qWindow (alignPairs sd bd) k).length ≤ 63) ∧
      (qWindow (alignPairs sd bd) 4 ++ qWindow (alignPairs sd bd) 3 ++
        qWindow (alignPairs sd bd) 2 ++ qWindow (alignPairs sd bd) 1 =
        (alignPairs sd bd).drop ((alignPairs sd bd).length - 252))) := by
  constructor
  · intro h
    simp only [calculateRawRs]
    split
    · rfl
    · rfl
  · intro hnd hposS hposB hlen
    have hsd : 60 ≤ sd.length := le_trans hlen (alignPairs_length_le_left sd bd)
    have hbd : 60 ≤ bd.length := le_trans hlen (alignPairs_length_le_right sd bd hnd)
    have hpos : ∀ p ∈ alignPairs sd bd, 0 < p.1.close ∧ 0 < p.2.close := by
      intro p hp
      obtain ⟨h1, h2, _⟩ := alignPairs_mem sd bd p hp
      exact ⟨hposS p.1 h1, hposB p.2 h2⟩
    refine ⟨?_, ?_, ?_⟩
    · simp only [calculateRawRs]
      rw [if_neg (by omega), if_neg (by omega)]
      have e126 : (alignPairs sd bd).length - 63 - 63 = (alignPairs sd bd).length - 126 := by
        omega
      have e189 : (alignPairs sd bd).length - 126 - 63 = (alignPairs sd bd).length - 189 := by
        omega
      have e252 : (alignPairs sd bd).length - 189 - 63 = (alignPairs sd bd).length - 252 := by
        omega
      rw [e126, e189, e252]
      have w1 : (calcReturn (alignPairs sd bd) ((alignPairs sd bd).length - 63)
            (alignPairs sd bd).length).1 -
          (calcReturn (alignPairs sd bd) ((alignPairs sd bd).length - 63)
            (alignPairs sd bd).length).2 = windowOut (qWindow (alignPairs sd bd) 1) := by
        rw [calcReturn_windowOut _ _ _ (le_refl _) hpos]
        rw [List.take_length]
        rfl
      have w2 : (calcReturn (alignPairs sd bd) ((alignPairs sd bd).length - 126)
            ((alignPairs sd bd).length - 63)).1 -
          (calcReturn (alignPairs sd bd) ((alignPairs sd bd).length - 126)
            ((alignPairs sd bd).length - 63)).2 =
            windowOut (qWindow (alignPairs sd bd) 2) := by
        rw [calcReturn_windowOut _ _ _ (Nat.sub_le _ _) hpos]
        rfl
      have w3 : (calcReturn (alignPairs sd bd) ((alignPairs sd bd).length - 189)
            ((alignPairs sd bd).length - 126)).1 -
          (calcReturn (alignPairs sd bd) ((alignPairs sd bd).length - 189)
            ((alignPairs sd bd).length - 126)).2 =
            windowOut (qWindow (alignPairs sd bd) 3) := by
        rw [calcReturn_windowOut _ _ _ (Nat.sub_le _ _) hpos]
        rfl
      have w4 : (calcReturn (alignPairs sd bd) ((alignPairs sd bd).length - 252)
            ((alignPairs sd bd).length - 189)).1 -
          (calcReturn (alignPairs sd bd) ((alignPairs sd bd).length - 252)
            ((alignPairs sd bd).length - 189)).2 =
            windowOut (qWindow (alignPairs sd bd) 4) := by
        rw [calcReturn_windowOut _ _ _ (Nat.sub_le _ _) hpos]
        rfl
      rw [w1, w2, w3, w4]
      ring
    · intro k
      rcases k with _ | _ | _ | _ | _ | n
      · simp [qWindow]
      · simp only [qWindow, List.length_drop]
        omega
      · simp only [qWindow, List.length_drop, List.length_take]
        omega
      · simp only [qWindow, List.length_drop, List.length_take]
        omega
      · simp only [qWindow, List.length_drop, List.length_take]
        omega
      · simp [qWindow]
    · have h1 : qWindow (alignPairs sd bd) 4 ++ qWindow (alignPairs sd bd) 3 =
          ((alignPairs sd bd).take ((alignPairs sd bd).length - 126)).drop
            ((alignPairs sd bd).length - 252) := by
        simp only [qWindow]
        exact slice_append _ _ _ _ (by omega) (by omega)
      have h2 : ((alignPairs sd bd).take ((alignPairs sd bd).length - 126)).drop
            ((alignPairs sd bd).length - 252) ++ qWindow (alignPairs sd bd) 2 =
          ((alignPairs sd bd).take ((alignPairs sd bd).length - 63)).drop
            ((alignPairs sd bd).length - 252) := by
        simp only [qWindow]
        exact slice_append _ _ _ _ (by omega) (by omega)
      have hq1 : qWindow (alignPairs sd bd) 1 =
          ((alignPairs sd bd).take (alignPairs sd bd).length).drop
            ((alignPairs sd bd).length - 63) := by
        simp [qWindow, List.take_length]
      have h3 : ((alignPairs sd bd).take ((alignPairs sd bd).length - 63)).drop
            ((alignPairs sd bd).length - 252) ++ qWindow (alignPairs sd bd) 1 =
          ((alignPairs sd bd).take (alignPairs sd bd).length).drop
            ((alignPairs sd bd).length - 252) := by
        rw [hq1]
        exact slice_append _ _ _ _ (by omega) (by omega)
      rw [h1, h2, h3, List.take_length]

theorem calculateRawRs_spec_witness :
    (calculateRawRs rsData rsData =
      0.4 * windowOut (qWindow (alignPairs rsData rsData) 1) +
      0.2 * windowOut (qWindow (alignPairs rsData rsData) 2) +
      0.2 * windowOut (qWindow (alignPairs rsData rsData) 3) +
      0.2 * windowOut (qWindow (alignPairs rsData rsData) 4)) ∧
    (qWindow (alignPairs rsData rsData) 4 ++ qWindow (alignPairs rsData rsData) 3 ++
      qWindow (alignPairs rsData rsData) 2 ++ qWindow (alignPairs rsData rsData) 1 =
      (alignPairs rsData rsData).drop ((alignPairs rsData rsData).length - 252)) :=
  ⟨((calculateRawRs_spec rsData rsData).2 (by decide) (by decide) (by decide) (by decide)).1,
    ((calculateRawRs_spec rsData rsData).2 (by decide) (by decide) (by decide)
      (by decide)).2.2⟩
